import Mathlib

/-!
Verification of the sandbox-mcp control plane against its specification.

The TypeScript source is shallowly embedded in Lean:
* JavaScript objects used as string-keyed maps become association lists
  (`List (String × α)`) preserving insertion order, with the spread-update
  `{...obj, [k]: v}` and destructuring-removal semantics made explicit.
* `Date.now()` becomes an explicit `now : Int` parameter.
* Effect pipelines with typed failure become `Except` values; the sequential
  semantics of a single request is modelled (the optimistic-concurrency retry
  loop around index writes always succeeds on the first attempt when there is
  no concurrent writer, so it is embedded as its single successful iteration).
* The R2 bucket is modelled as holding already-decoded, schema-valid values;
  JSON (de)serialisation is assumed faithful.
-/

namespace SandboxMcp

/-! ## JavaScript primitives -/

/-- Model of `bucket.get(key)` / property lookup on an object used as a map:
the value at the first (unique, for real objects) occurrence of the key. -/

def jsGet (m : List (String × α)) (k : String) : Option α :=
  (m.find? (fun p => p.1 == k)).map (fun p => p.2)

/-- The object spread update `{...obj, [k]: v}`: if `k` is already a key its
value is replaced in place, otherwise the pair is appended at the end. -/
def objSet (m : List (String × α)) (k : String) (v : α) : List (String × α) :=
  match m with
  | [] => [(k, v)]
  | (k0, v0) :: rest =>
    if k0 == k then (k, v) :: rest else (k0, v0) :: objSet rest k v

/-- Model of `Object.values(obj)` for the association-list model. -/
def objValues (m : List (String × α)) : List α :=
  m.map (fun p => p.2)

/-- JavaScript `String.prototype.split` with a single-character separator,
on the character-list view of a string (`"".split(c) == [""]`). -/
def splitOnChar (c : Char) : List Char → List (List Char)
  | [] => [[]]
  | x :: rest =>
    let r := splitOnChar c rest
    if x = c then [] :: r
    else (x :: r.headD []) :: r.tail

/-- JavaScript `String.prototype.includes` (substring containment) on
character lists. -/
def containsSub (needle : List Char) : List Char → Bool
  | [] => needle.isEmpty
  | c :: rest => needle.isPrefixOf (c :: rest) || containsSub needle rest

/-- Substring containment lifted to `String`. -/
def strIncludes (hay needle : String) : Bool :=
  containsSub needle.data hay.data

/-- Stable insertion of an element into a list sorted descending by `key`:
the element goes in front of the first entry whose key is not larger. This is
the insertion step of the model of JavaScript's stable `Array.prototype.sort`
with comparator `(a, b) => key(b) - key(a)`. -/
def insertDesc (key : α → Int) (a : α) : List α → List α
  | [] => [a]
  | b :: l => if key b ≤ key a then a :: b :: l else b :: insertDesc key a l

/-- Model of JavaScript's stable `arr.sort((a, b) => key(b) - key(a))`:
sort descending by an integer key, equal keys keeping their relative order. -/
def jsSortDesc (key : α → Int) : List α → List α
  | [] => []
  | a :: l => insertDesc key a (jsSortDesc key l)

/-- Truthiness of an optional string option (`if (options?.field)`):
present and non-empty. -/
def truthyStr : Option String → Bool
  | none => false
  | some s => s != ""

/-- Truthiness of an optional numeric option (`if (options?.field)`):
present and non-zero. -/
def truthyInt : Option Int → Bool
  | none => false
  | some n => n != 0

/-! ## Run storage (src/services/run.ts)

`RunStorageService` backed by R2: full records at `runs/{runId}.json` and a
single global index object at `runs/_index.json`. -/

/-- Lightweight run entry for the global index (schema `RunIndexEntry`). -/

structure RunIndexEntry where
  runId : String
  sessionId : String
  status : String
  title : String
  startedAt : Int
  completedAt : Option Int
deriving DecidableEq, Repr

/-- The global run index stored at `runs/_index.json` (schema `RunIndex`);
`runs` is a JS object keyed by run id, modelled as an association list. -/
structure RunIndex where
  version : Nat
  runs : List (String × RunIndexEntry)
  updatedAt : Int
deriving DecidableEq, Repr

/-- Modelled from the spec: the `result` field of a run record
(`RunResult` in `src/models/run.ts`, whose source file is absent from the
tree; fields per spec §3: `{success, output, optional error}`). -/
structure RunResult where
  success : Bool
  output : String
  error : Option String
deriving DecidableEq, Repr

/-- Modelled from the spec: a full run record (`RunRecord` in
`src/models/run.ts`, absent from the tree; fields per spec §3: `runId`,
`sessionId`, `workflowId`, `status ∈ {started, running, completed, failed}`,
`task`, `title`, `model`, `startedAt`, optional `completedAt`, optional
`result`). -/
structure RunRecord where
  runId : String
  sessionId : String
  workflowId : String
  status : String
  task : String
  title : String
  model : String
  startedAt : Int
  completedAt : Option Int
  result : Option RunResult
deriving DecidableEq, Repr

/-- Argument of `completeRun` (`CompleteRunResult`). -/
structure CompleteRunResult where
  success : Bool
  output : Option String
  error : Option String
  title : Option String
deriving DecidableEq, Repr

/-- Typed `RunStorageReadError` (`src/models/errors.ts`): optional run id
plus a cause string. -/
structure RunStorageReadError where
  runId : Option String
  cause : String
deriving DecidableEq, Repr

/-- The run-related contents of the R2 bucket: decoded records under
`runs/{runId}.json` and the optional global index object. -/
structure RunBucket where
  records : List (String × RunRecord)
  index : Option RunIndex
deriving Repr

/-- The run-side `readIndex`: returns the stored index, synthesizing an empty
index `{version: 1, runs: {}, updatedAt: Date.now()}` when the object is
absent. -/
def readRunIndex (now : Int) (b : RunBucket) : RunIndex :=
  match b.index with
  | none => { version := 1, runs := [], updatedAt := now }
  | some idx => idx

/-- Projection `toIndexEntry`: project a full run record to its index entry. -/
def toIndexEntry (run : RunRecord) : RunIndexEntry :=
  { runId := run.runId
    sessionId := run.sessionId
    status := run.status
    title := run.title
    startedAt := run.startedAt
    completedAt := run.completedAt }

/-- Embedding of `completeRun(runId, result)`: read the existing run (failing with a
read error of cause `Run not found` when absent), set
`status = success ? "completed" : "failed"`, `completedAt = now`,
`title = result.title ?? existing.title`,
`result = {success, output: output ?? "", error}`, write the record back and
upsert the corresponding index entry. -/
def completeRun (runId : String) (result : CompleteRunResult) (now : Int)
    (b : RunBucket) : Except RunStorageReadError RunBucket :=
  match jsGet b.records runId with
  | none => .error { runId := some runId, cause := "Run not found" }
  | some existingRun =>
    let updatedRun : RunRecord :=
      { existingRun with
        status := if result.success then "completed" else "failed"
        completedAt := some now
        title := result.title.getD existingRun.title
        result := some { success := result.success
                         output := result.output.getD ""
                         error := result.error } }
    let b1 : RunBucket := { b with records := objSet b.records runId updatedRun }
    let idx := readRunIndex now b1
    .ok { b1 with
          index := some { idx with
                          runs := objSet idx.runs runId (toIndexEntry updatedRun)
                          updatedAt := now } }

/-- Options of `listRuns` (`ListRunsOptions`); all filters optional. -/
structure ListRunsOptions where
  sessionId : Option String := none
  status : Option String := none
  limit : Option Nat := none
  before : Option Int := none
deriving Repr

/-- Result of `listRuns` (`ListRunsResult`). -/
structure ListRunsResult where
  runs : List RunIndexEntry
  total : Nat
deriving DecidableEq, Repr

/-- The filter phase of `listRuns`: apply each of the three filters only
when its option value is truthy. -/
def listRunsFilter (options : ListRunsOptions) (all0 : List RunIndexEntry) :
    List RunIndexEntry :=
  let all1 := if truthyStr options.sessionId then
      all0.filter (fun r => r.sessionId == options.sessionId.getD "") else all0
  let all2 := if truthyStr options.status then
      all1.filter (fun r => r.status == options.status.getD "") else all1
  let all3 := if truthyInt options.before then
      all2.filter (fun r => decide (r.startedAt < options.before.getD 0)) else all2
  all3

/-- Embedding of `listRuns(options)`: read the index, apply the filter phase, sort by
`startedAt` most-recent-first, and return the first `limit` (default 100)
entries together with the pre-limit count. -/
def listRuns (options : ListRunsOptions) (now : Int) (b : RunBucket) :
    ListRunsResult :=
  let idx := readRunIndex now b
  let all3 := listRunsFilter options (objValues idx.runs)
  let sorted := jsSortDesc (fun r => r.startedAt) all3
  let total := sorted.length
  let limit := options.limit.getD 100
  { runs := sorted.take limit, total := total }

/-- Primitive bucket mutations performed by `deleteRunsForSession`, recorded
in order so the index-first write discipline is visible. -/
inductive StoreOp where
  | putIndex : StoreOp
  | deleteRecord : String → StoreOp
deriving DecidableEq, Repr

/-- Embedding of `deleteRunsForSession(sessionId)`: read the index, collect the run ids
whose entry carries this session id, return immediately when there are none;
otherwise first write the filtered index (making the rows invisible to
listings) and only then delete the underlying record objects. The returned
operation log records the order of the bucket writes. -/
def deleteRunsForSession (sessionId : String) (now : Int) (b : RunBucket) :
    RunBucket × List StoreOp :=
  let idx := readRunIndex now b
  let runsToDelete := (objValues idx.runs).filter
    (fun r => r.sessionId == sessionId)
  let runIdsToDelete := runsToDelete.map (fun r => r.runId)
  if runIdsToDelete.isEmpty then (b, [])
  else
    let remainingRuns := idx.runs.filter (fun p => p.2.sessionId != sessionId)
    let b1 : RunBucket :=
      { b with index := some { idx with runs := remainingRuns, updatedAt := now } }
    let newRecords := runIdsToDelete.foldl
      (fun recs rid => recs.filter (fun p => p.1 != rid)) b1.records
    let b2 : RunBucket := { b1 with records := newRecords }
    (b2, StoreOp.putIndex :: runIdsToDelete.map StoreOp.deleteRecord)

/-! ## Session storage (src/services/session.ts)

`SessionStorageService` backed by R2: full session records at
`sessions/{sessionId}.json` and a single index object at
`sessions/_index.json`. -/

/-- Repository information inside a session record (`RepositoryInfo`). -/

structure RepositoryInfo where
  url : String
  branch : String
deriving DecidableEq, Repr

/-- Session configuration (`SessionConfig`). -/
structure SessionConfig where
  defaultModel : String
deriving DecidableEq, Repr

/-- Full session metadata (`SessionMetadata` in `src/models/session.ts`).
`sessionId` is the branded session-id string
(`^[a-z0-9]+(-[a-z0-9]+)*$`, max 64); `status` is one of
`creating`, `active`, `idle`, `stopped`, `error`. -/
structure SessionMetadata where
  sessionId : String
  sandboxId : String
  createdAt : Int
  lastActivity : Int
  status : String
  workspacePath : String
  webUiUrl : String
  repository : Option RepositoryInfo
  title : Option String
  config : SessionConfig
  opencodeSessionId : Option String
  clonedRepos : Option (List String)
deriving DecidableEq, Repr

/-- Lightweight session entry for the index (`SessionIndexEntry`). -/
structure SessionIndexEntry where
  sessionId : String
  status : String
  createdAt : Int
  lastActivity : Int
  title : Option String
deriving DecidableEq, Repr

/-- The session index stored at `sessions/_index.json` (`SessionIndex`). -/
structure SessionIndex where
  version : Nat
  sessions : List (String × SessionIndexEntry)
  updatedAt : Int
deriving DecidableEq, Repr

/-- The session-related contents of the R2 bucket. -/
structure SessionBucket where
  sessions : List (String × SessionMetadata)
  index : Option SessionIndex
deriving Repr

/-- The session-side `readIndex`: the stored index, or a synthesized empty index
`{version: 1, sessions: {}, updatedAt: Date.now()}` when the object is
absent. -/
def readSessionIndex (now : Int) (b : SessionBucket) : SessionIndex :=
  match b.index with
  | none => { version := 1, sessions := [], updatedAt := now }
  | some idx => idx

/-- Embedding of `getSession(sessionId)`: the decoded record at
`sessions/{sessionId}.json`, or none when the object is absent. -/
def getSession (b : SessionBucket) (sessionId : String) :
    Option SessionMetadata :=
  jsGet b.sessions sessionId

/-- Options of `listSessions`. -/
structure ListSessionsOptions where
  limit : Option Nat := none
  offset : Option Nat := none
deriving Repr

/-- Result of `listSessions`. -/
structure ListSessionsResult where
  sessions : List SessionIndexEntry
  total : Nat
deriving DecidableEq, Repr

/-- Embedding of `listSessions(options)`: read the index, sort entries by `lastActivity`
most-recent-first, and return the slice
`[offset, offset + limit)` (defaults `offset = 0`, `limit = 100`) together
with the total count. -/
def listSessions (options : ListSessionsOptions) (now : Int)
    (b : SessionBucket) : ListSessionsResult :=
  let idx := readSessionIndex now b
  let allSessions := jsSortDesc (fun s => s.lastActivity)
    (objValues idx.sessions)
  let offset := options.offset.getD 0
  let limit := options.limit.getD 100
  { sessions := (allSessions.drop offset).take limit
    total := allSessions.length }

/-! ## Tool dispatcher (src/agent/mcp-agent.ts)

The `run_task` tool handler: only the session-resolution prefix is given a
concrete body; everything from session creation onwards (which ends in the
workflow submission) is abstracted as a continuation `rest`, since the claim
under study concerns the early-return branch. -/

/-- The `{code, message}` envelope produced by `formatErrorResponse`. -/

structure ErrorResponse where
  code : String
  message : String
deriving DecidableEq, Repr

/-- Error class `SessionNotFoundError` (`src/models/errors.ts`): tagged error carrying
the missing session id; `_tag = "SessionNotFoundError"`. -/
structure SessionNotFoundError where
  sessionId : String
deriving DecidableEq, Repr

/-- The tag of `SessionNotFoundError` (its `_tag`, also used as the error
code by `formatDomainError`). -/
def SessionNotFoundError.tag : String := "SessionNotFoundError"

/-- The `message` getter of `SessionNotFoundError`:
`Session "{sessionId}" not found`. -/
def SessionNotFoundError.message (e : SessionNotFoundError) : String :=
  "Session \"" ++ e.sessionId ++ "\" not found"

/-- Embedding of `formatDomainError` applied to a session error: the envelope tagged with
the error's own tag and message. -/
def formatDomainError (e : SessionNotFoundError) : ErrorResponse :=
  { code := SessionNotFoundError.tag, message := e.message }

/-- Input of the `run_task` tool (`RunTaskInput`); only the fields read by
the session-resolution prefix are carried. -/
structure RunTaskInput where
  task : String
  sessionId : Option String := none
  repository : Option String := none
  branch : Option String := none
  model : Option String := none
  title : Option String := none
deriving Repr

/-- Outcome of a `run_task` invocation: a structured error envelope or a
success payload, paired with whether a workflow instance was submitted. -/
inductive RunTaskOutcome where
  | error (e : ErrorResponse)
  | ok (runId sessionId status webUiUrl : String)
deriving DecidableEq, Repr

/-- The session-resolution prefix of the `run_task` handler: when a
`sessionId` is supplied the session is loaded from storage, and a missing
session returns `formatDomainError(new SessionNotFoundError({sessionId}))`
immediately — before any token is minted or workflow submitted. The rest of
the handler (session creation, token minting, workflow submission, response
assembly) is the continuation `rest`, invoked with the resolved or
freshly-created session; the Bool of the result records whether a workflow
was submitted. -/
def runTaskSessionGate (b : SessionBucket) (params : RunTaskInput)
    (rest : Option SessionMetadata → RunTaskOutcome × Bool) :
    RunTaskOutcome × Bool :=
  match params.sessionId with
  | some sid =>
    match getSession b sid with
    | none =>
      (RunTaskOutcome.error (formatDomainError { sessionId := sid }), false)
    | some s => rest (some s)
  | none => rest none

/-! ## Token service (src/proxy/token.ts)

HS256 JWTs are modelled symbolically: a signed token records the protected
header's algorithm, the payload claims, and the key it was signed with;
signature verification succeeds exactly when the verifying secret equals the
signing key. -/

/-- Typed proxy-token errors (`src/proxy/errors.ts`):
`ProxyTokenExpiredError` (no fields) and `ProxyTokenInvalidError` (reason). -/

inductive ProxyTokenError where
  | expiredErr : ProxyTokenError
  | invalidErr : String → ProxyTokenError
deriving DecidableEq, Repr

/-- The `code` of a proxy token error. -/
def ProxyTokenError.code : ProxyTokenError → String
  | .expiredErr => "PROXY_TOKEN_EXPIRED"
  | .invalidErr _ => "PROXY_TOKEN_INVALID"

/-- The JWT claims set carried by a token; each claim may be absent. -/
structure TokenClaims where
  sandboxId : Option String
  sessionId : Option String
  exp : Option Int
  iat : Option Int
deriving DecidableEq, Repr

/-- A compact JWS produced by `SignJWT`: protected-header algorithm, claims,
and the secret the signature binds it to. -/
structure SignedToken where
  alg : String
  payload : TokenClaims
  key : String
deriving DecidableEq, Repr

/-- The token string handed to `verifyProxyToken`: the empty string, a string
that is not a compact JWS at all, or a well-formed signed token. -/
inductive TokenWire where
  | empty : TokenWire
  | malformed : String → TokenWire
  | signed : SignedToken → TokenWire
deriving DecidableEq, Repr

/-- The verified payload (`ProxyTokenPayload`). -/
structure ProxyTokenPayload where
  sandboxId : String
  sessionId : Option String
  exp : Int
  iat : Int
deriving DecidableEq, Repr

/-- Options of `createProxyToken`. -/
structure CreateProxyTokenOptions where
  secret : String
  sandboxId : String
  sessionId : Option String := none
  expiresIn : Option String := none
deriving Repr

/-- Options of `verifyProxyToken`. -/
structure VerifyProxyTokenOptions where
  secret : String
  token : TokenWire
deriving Repr

/-- The digits of a decimal numeral folded to a natural number
(`parseInt(s, 10)` on an all-digit string). -/
def digitsToNat (digits : List Char) : Nat :=
  digits.foldl (fun n c => n * 10 + (c.toNat - ('0').toNat)) 0

/-- Embedding of `parseExpiresIn`: parse an expiration string against
`^(\d+)(m|h|d)?$` — a decimal value with optional unit minutes/hours/days,
bare value meaning seconds; anything else is an invalid-format error. -/
def parseExpiresIn (expiresIn : String) : Except String Nat :=
  let cs := expiresIn.data
  let digits := cs.takeWhile (fun c => c.isDigit)
  let rest := cs.dropWhile (fun c => c.isDigit)
  if digits.isEmpty then
    .error ("Invalid expiresIn format: " ++ expiresIn
      ++ ". Use '30m', '2h', '1d', or seconds.")
  else
    let value := digitsToNat digits
    match rest with
    | [] => .ok value
    | ['m'] => .ok (value * 60)
    | ['h'] => .ok (value * 60 * 60)
    | ['d'] => .ok (value * 60 * 60 * 24)
    | _ =>
      .error ("Invalid expiresIn format: " ++ expiresIn
        ++ ". Use '30m', '2h', '1d', or seconds.")

/-- Embedding of `createProxyToken(options)`: require a non-empty secret and sandbox id,
parse `expiresIn` (default `15m`), and sign a token whose payload carries
`sandboxId`, `sessionId` only when truthy, `iat = now` and
`exp = now + seconds`. A thrown message is wrapped by the catch handler into
`ProxyTokenInvalidError(reason = message)`. -/
def createProxyToken (o : CreateProxyTokenOptions) (now : Int) :
    Except ProxyTokenError SignedToken :=
  if o.secret == "" then .error (.invalidErr ("JWT secret is required"))
  else if o.sandboxId == "" then .error (.invalidErr ("Sandbox ID is required"))
  else
    match parseExpiresIn (o.expiresIn.getD ("15m")) with
    | .error msg => .error (.invalidErr msg)
    | .ok seconds =>
      .ok { alg := "HS256"
            payload :=
              { sandboxId := some o.sandboxId
                sessionId := match o.sessionId with
                  | some s => if s != "" then some s else none
                  | none => none
                exp := some (now + (seconds : Int))
                iat := some now }
            key := o.secret }

/-- Modelled from the jose library (an external dependency, not part of this
repository): the message of `JWTExpired`, thrown by `jwtVerify` when the
`exp` claim is not in the future. -/
def joseExpiredMessage : String := "\"exp\" claim timestamp check failed"

/-- Modelled from the jose library: the message of
`JWSSignatureVerificationFailed`. -/
def joseSignatureMessage : String := "signature verification failed"

/-- Modelled from the jose library: the message of `JWSInvalid` for input
that is not a compact JWS. -/
def joseCompactMessage : String := "Invalid Compact JWS"

/-- Modelled from the jose library: the message of `JOSEAlgNotAllowed` when
the header algorithm is outside the allowed set. -/
def joseAlgMessage : String :=
  "\"alg\" (Algorithm) Header Parameter value not allowed"

/-- Modelled from the jose library: `jwtVerify(token, key, {algorithms:
["HS256"]})` — check the allowed algorithm, verify the signature against the
key, then validate the claims set: a present `exp` that is not strictly in
the future raises `JWTExpired`. On success the claims set is returned. -/
def joseJwtVerify (token : SignedToken) (secret : String) (now : Int) :
    Except String TokenClaims :=
  if token.alg != "HS256" then .error joseAlgMessage
  else if token.key != secret then .error joseSignatureMessage
  else
    match token.payload.exp with
    | some e => if e ≤ now then .error joseExpiredMessage else .ok token.payload
    | none => .ok token.payload

/-- The `try` block of `verifyProxyToken`: require a secret and a token,
run `jwtVerify`, then require `sandboxId`, `exp` and `iat` claims, returning
the typed payload. Failures are the thrown message strings. -/
def verifyProxyTokenTry (o : VerifyProxyTokenOptions) (now : Int) :
    Except String ProxyTokenPayload :=
  if o.secret == "" then .error ("JWT secret is required")
  else
    match o.token with
    | .empty => .error ("Token is required")
    | .malformed _ => .error joseCompactMessage
    | .signed t =>
      match joseJwtVerify t o.secret now with
      | .error m => .error m
      | .ok payload =>
        match payload.sandboxId with
        | none => .error ("Missing sandboxId in token")
        | some sb =>
          match payload.exp with
          | none => .error ("Missing expiration in token")
          | some e =>
            match payload.iat with
            | none => .error ("Missing issued-at in token")
            | some i =>
              .ok { sandboxId := sb
                    sessionId := payload.sessionId
                    exp := e
                    iat := i }

/-- The `catch` handler of `verifyProxyToken`: classify the thrown message
by substring — `expired` maps to `ProxyTokenExpiredError`, `signature` and
`malformed` to fixed `ProxyTokenInvalidError` reasons, anything else to
`ProxyTokenInvalidError(reason = message)`. -/
def classifyVerifyError (message : String) : ProxyTokenError :=
  if strIncludes message ("expired") then .expiredErr
  else if strIncludes message ("signature") then
    .invalidErr ("Invalid token signature")
  else if strIncludes message ("malformed") then
    .invalidErr ("Malformed token")
  else .invalidErr message

/-- Embedding of `verifyProxyToken(options)`: the `try` block with its failures mapped
through the `catch` classifier. -/
def verifyProxyToken (o : VerifyProxyTokenOptions) (now : Int) :
    Except ProxyTokenError ProxyTokenPayload :=
  (verifyProxyTokenTry o now).mapError classifyVerifyError

/-- Embedding of `verifyProxyTokenAsync`: the Promise wrapper around `verifyProxyToken`
(`Effect.runPromise`); semantically identical. -/
def verifyProxyTokenAsync (o : VerifyProxyTokenOptions) (now : Int) :
    Except ProxyTokenError ProxyTokenPayload :=
  verifyProxyToken o now

/-! ## Proxy path parsing (src/proxy/handler.ts)

Request pathnames are modelled as character lists (the JS string view used
by `split`/`slice`). -/

/-- Typed `ProxyPathInvalidError` (code `PROXY_PATH_INVALID`, HTTP 400). -/

structure ProxyPathInvalidError where
  path : List Char
  mountPath : List Char
deriving DecidableEq, Repr

/-- Result of `parseProxyPath`. -/
structure ServicePath where
  service : List Char
  path : List Char
deriving DecidableEq, Repr

/-- Drop a single leading occurrence of a character
(the `^\/` alternative of `replace(/^\/|\/$/g, "")`). -/
def stripOneLead (c : Char) : List Char → List Char
  | [] => []
  | x :: rest => if x = c then rest else x :: rest

/-- Drop a single trailing occurrence of a character
(the `\/$` alternative of `replace(/^\/|\/$/g, "")`). -/
def stripOneTrail (c : Char) (l : List Char) : List Char :=
  (stripOneLead c l.reverse).reverse

/-- Normalize the mount path to have a leading slash and no trailing slash:
`` `/${mountPath.replace(/^\/|\/$/g, "")}` ``. -/
def normalizeMount (mountPath : List Char) : List Char :=
  '/' :: stripOneTrail '/' (stripOneLead '/' mountPath)

/-- Embedding of `parseProxyPath(pathname, mountPath)`: after the normalized mount prefix
the remainder must start with `/` and not be exactly `/`; the first
slash-separated segment is the service (must be non-empty) and the rest,
re-joined behind a leading slash, is the target path. Anything else throws
`ProxyPathInvalidError`. -/
def parseProxyPath (pathname mountPath : List Char) :
    Except ProxyPathInvalidError ServicePath :=
  let normalizedMount := normalizeMount mountPath
  if !(normalizedMount.isPrefixOf pathname) then
    .error { path := pathname, mountPath := normalizedMount }
  else
    let afterMount := pathname.drop normalizedMount.length
    if !(['/'].isPrefixOf afterMount) || afterMount == ['/'] then
      .error { path := pathname, mountPath := normalizedMount }
    else
      let parts := splitOnChar '/' (afterMount.drop 1)
      let service := parts.headD []
      let path := '/' :: List.intercalate ['/'] parts.tail
      if service.isEmpty then
        .error { path := pathname, mountPath := normalizedMount }
      else .ok { service := service, path := path }

/-! ## GitHub proxy service (src/proxy/services/github.ts) -/

/-- A character matched by an (unflagged) JavaScript regex `.`:
anything but a line terminator. -/

def dotCh (c : Char) : Bool :=
  !(c == '\n' || c == '\r' || c == '\u2028' || c == '\u2029')

/-- Whether the list contains a `/` that is not its last element
(a slash with at least one character after it). -/
def slashWithTail : List Char → Bool
  | [] => false
  | [_] => false
  | c :: d :: rest => c == '/' || slashWithTail (d :: rest)

/-- Whether a list matches `^\/.+\/.+$` with `.` excluding line terminators:
a leading slash, then a non-empty run, another slash and another non-empty
run (the runs may themselves contain slashes). This is the part of the git
allow-list pattern before the final `(\.git)?\/(…)` suffix, with the
optional `.git` absorbed into the preceding `.+`. -/
def middleOk : List Char → Bool
  | c :: a :: rest => c == '/' && (a :: rest).all dotCh && slashWithTail rest
  | _ => false

/-- The three literal suffixes of the git smart-HTTP allow-list. -/
def gitSuffixes : List (List Char) :=
  [("info/refs").data, ("git-upload-pack").data, ("git-receive-pack").data]

/-- Executable test of `ALLOWED_GIT_PATHS =
^\/.+\/.+(\.git)?\/(info\/refs|git-upload-pack|git-receive-pack)$`:
the path ends in `/` followed by one of the three literal suffixes and the
part before that separator matches `^\/.+\/.+(\.git)?$` (the optional
`.git` being absorbable into the second `.+`, this is `middleOk`). -/
def gitPathMatches (s : List Char) : Bool :=
  gitSuffixes.any (fun sfx =>
    ('/' :: sfx).isSuffixOf s
      && middleOk (s.take (s.length - (sfx.length + 1))))

/-- Direct transliteration of the regex
`^\/.+\/.+(\.git)?\/(info\/refs|git-upload-pack|git-receive-pack)$`:
a slash, a non-empty run of `.`-characters, a slash, another non-empty run,
an optional literal `.git`, a slash and one of the three literal
suffixes. -/
def GitPathRegexMatch (s : List Char) : Prop :=
  ∃ A B G sfx,
    s = '/' :: (A ++ '/' :: (B ++ G ++ '/' :: sfx)) ∧
    A ≠ [] ∧ B ≠ [] ∧ A.all dotCh ∧ B.all dotCh ∧
    (G = [] ∨ G = (".git").data) ∧ sfx ∈ gitSuffixes

/-- Header-name normalization of the Fetch `Headers` class: names compare
case-insensitively. -/
def headerNameLower (s : String) : String :=
  ⟨s.data.map Char.toLower⟩

/-- Model of `headers.set(name, value)`: replace any entries whose name matches
case-insensitively, leaving a single entry with the given value. -/
def headersSet (hs : List (String × String)) (name value : String) :
    List (String × String) :=
  hs.filter (fun p => headerNameLower p.1 != headerNameLower name)
    ++ [(name, value)]

/-- Model of `headers.get(name)`: case-insensitive lookup. -/
def headersGet (hs : List (String × String)) (name : String) : Option String :=
  (hs.find? (fun p => headerNameLower p.1 == headerNameLower name)).map
    (fun p => p.2)

/-- The standard base64 alphabet used by `btoa`. -/
def base64Alphabet : List Char :=
  ("ABCDEFGHIJKLMNOPQRSTUVWXYZabcdefghijklmnopqrstuvwxyz0123456789+/").data

/-- The base64 digit for a 6-bit value. -/
def b64Char (n : Nat) : Char :=
  base64Alphabet.getD n 'A'

/-- Base64-encode a byte list three bytes at a time, padding with `=`. -/
def btoaChunks : List Nat → List Char
  | [] => []
  | [a] =>
    let n := a * 65536
    [b64Char (n / 262144 % 64), b64Char (n / 4096 % 64), '=', '=']
  | [a, b] =>
    let n := a * 65536 + b * 256
    [b64Char (n / 262144 % 64), b64Char (n / 4096 % 64),
      b64Char (n / 64 % 64), '=']
  | a :: b :: c :: rest =>
    let n := a * 65536 + b * 256 + c
    b64Char (n / 262144 % 64) :: b64Char (n / 4096 % 64)
      :: b64Char (n / 64 % 64) :: b64Char (n % 64) :: btoaChunks rest

/-- Model of `btoa(s)`: base64 of the code points of a latin-1 string (the browsers'
`btoa` throws outside latin-1; code points are reduced mod 256 here only for
totality — all theorems use it on latin-1 input). -/
def btoa (s : String) : String :=
  ⟨btoaChunks (s.data.map (fun c => c.toNat % 256))⟩

/-- The environment read by the github service transform. -/
structure GithubEnv where
  GITHUB_TOKEN : Option String
deriving Repr

/-- The slice of a Fetch `Request` the github transform reads and writes:
the URL pathname and the header list. -/
structure ProxyRequest where
  pathname : List Char
  headers : List (String × String)
deriving DecidableEq, Repr

/-- A service transform returns either a short-circuit `Response`
(status and body) or the rewritten `Request` to forward. -/
inductive TransformResult where
  | response : Nat → String → TransformResult
  | request : ProxyRequest → TransformResult
deriving DecidableEq, Repr

/-- The `github` service transform: 500 when `GITHUB_TOKEN` is not
configured; 400 `Invalid git path` when the pathname is outside the git
smart-HTTP allow-list; otherwise set `Authorization` to
`Basic btoa("x-access-token:" + GITHUB_TOKEN)` and force the fixed
`User-Agent`, returning the rewritten request. -/
def githubTransform (req : ProxyRequest) (env : GithubEnv) : TransformResult :=
  if !(truthyStr env.GITHUB_TOKEN) then
    .response 500 ("GITHUB_TOKEN not configured")
  else if !(gitPathMatches req.pathname) then
    .response 400 ("Invalid git path")
  else
    let tok := env.GITHUB_TOKEN.getD ""
    let h1 := headersSet req.headers ("Authorization")
      ("Basic " ++ btoa ("x-access-token:" ++ tok))
    let h2 := headersSet h1 ("User-Agent") ("Sandbox-Git-Proxy")
    .request { req with headers := h2 }

/-- The forwarding step of `createProxyHandler` after `transform`: a
returned `Response` is sent back directly — the upstream `fetch` is skipped —
while a returned `Request` is forwarded to the upstream. -/
def contactsUpstream : TransformResult → Bool
  | .response _ _ => false
  | .request _ => true

/-! ## Claim-specific spec mirrors and witness fixtures -/

/-- Fixture for the C8 witness: a store without any session record. -/
def c8Bucket : SessionBucket := { sessions := [], index := none }

/-- Fixture for the C8 witness: a `run_task` input continuing the session
`does-not-exist`. -/
def c8Params : RunTaskInput :=
  { task := "x", sessionId := some ("does-not-exist") }

/-- Fixture for the C8 witness: an arbitrary continuation standing for the
rest of the handler (it submits a workflow when reached). -/
def c8Rest : Option SessionMetadata → RunTaskOutcome × Bool :=
  fun _ => (RunTaskOutcome.ok "" "" "" "", true)

/-- Fixture for the C9 witness: a run store never written to. -/
def c9RunBucket : RunBucket := { records := [], index := none }

/-- Fixture for the C9 witness: a session store never written to. -/
def c9SessionBucket : SessionBucket := { sessions := [], index := none }

/-- Fixture for the C2 witness: a stored run record. -/
def c2Run : RunRecord :=
  { runId := "r1", sessionId := "s1", workflowId := "w1", status := "started",
    task := "t", title := "orig", model := "m", startedAt := 100,
    completedAt := none, result := none }

/-- Fixture for the C2 witness: a bucket holding `c2Run` and its index
row. -/
def c2Bucket : RunBucket :=
  { records := [("r1", c2Run)],
    index := some { version := 1, runs := [("r1", toIndexEntry c2Run)],
                    updatedAt := 0 } }

/-- Fixture for the C2 witness: a bucket with no records. -/
def c2BucketEmpty : RunBucket := { records := [], index := none }

/-- Fixture for the C2 witness: a successful completion payload. -/
def c2Res : CompleteRunResult :=
  { success := true, output := some ("out"), error := none, title := none }

/-- The declarative "satisfies all supplied filters" predicate on run index
entries: session-id equality, status equality, and `startedAt` strictly
before the cursor, each applied only when the option is supplied. -/
def listRunsMatches (options : ListRunsOptions) (r : RunIndexEntry) : Bool :=
  (match options.sessionId with
    | none => true
    | some sid => r.sessionId == sid) &&
  (match options.status with
    | none => true
    | some st => r.status == st) &&
  (match options.before with
    | none => true
    | some t => decide (r.startedAt < t))

/-- Specification mirror of `listRuns`, written from the spec's words
(spec section 4.2: apply all supplied filters, sort descending by
`startedAt`, slice the first `limit`, `total` is the pre-limit count). -/
def listRunsSpec (options : ListRunsOptions) (now : Int) (b : RunBucket) :
    ListRunsResult :=
  let filtered := (objValues (readRunIndex now b).runs).filter
    (listRunsMatches options)
  { runs := (jsSortDesc (fun r => r.startedAt) filtered).take
      (options.limit.getD 100)
    total := filtered.length }

/-- Fixture for the C3 witness: an index with three runs across two
sessions (the spec's S6-style population). -/
def c3Index : RunIndex :=
  { version := 1
    runs :=
      [("a", { runId := "a", sessionId := "s1", status := "completed",
               title := "", startedAt := 100, completedAt := none }),
       ("b", { runId := "b", sessionId := "s2", status := "failed",
               title := "", startedAt := 200, completedAt := none }),
       ("c", { runId := "c", sessionId := "s1", status := "completed",
               title := "", startedAt := 300, completedAt := none })]
    updatedAt := 0 }

/-- Fixture for the C3 witness. -/
def c3Bucket : RunBucket := { records := [], index := some c3Index }

/-- Fixture for the C3 witness: filter to session `s1`, limit 1. -/
def c3Options : ListRunsOptions :=
  { sessionId := some ("s1"), limit := some 1 }

/-- Fixture for the C4 witness: an index with runs of sessions `s1` and
`s2`. -/
def c4Index : RunIndex :=
  { version := 1
    runs :=
      [("a", { runId := "a", sessionId := "s1", status := "completed",
               title := "", startedAt := 100, completedAt := none }),
       ("b", { runId := "b", sessionId := "s2", status := "failed",
               title := "", startedAt := 200, completedAt := none }),
       ("c", { runId := "c", sessionId := "s1", status := "started",
               title := "", startedAt := 300, completedAt := none })]
    updatedAt := 0 }

/-- Fixture for the C4 witness. -/
def c4Bucket : RunBucket := { records := [], index := some c4Index }

/-- Fixture for the C6 witness: an environment with a configured token. -/
def c6Env : GithubEnv := { GITHUB_TOKEN := some ("ghp-token") }

/-- Fixture for the C6 witness: a git smart-HTTP refs request. -/
def c6ReqOk : ProxyRequest :=
  { pathname := ("/u/r.git/info/refs").data, headers := [] }

/-- Fixture for the C6 witness: a GitHub API path outside the allow-list
(the spec's S3 scenario). -/
def c6ReqBad : ProxyRequest :=
  { pathname := ("/u/r/releases").data, headers := [] }

/-! ## Shared lemmas about the JavaScript primitives -/

theorem jsGet_objSet_self (m : List (String × α)) (k : String) (v : α) :
    jsGet (objSet m k v) k = some v := by
  induction m with
  | nil => simp [objSet, jsGet]
  | cons p rest ih =>
    obtain ⟨k0, v0⟩ := p
    simp only [objSet]
    by_cases h : (k0 == k) = true
    · simp [jsGet, List.find?, h]
    · simp only [h, if_false]
      simpa [jsGet, List.find?, h] using ih

theorem insertDesc_perm (key : α → Int) (a : α) (l : List α) :
    (insertDesc key a l).Perm (a :: l) := by
  induction l with
  | nil => simp [insertDesc]
  | cons b l ih =>
    simp only [insertDesc]
    by_cases h : key b ≤ key a
    · simp [h]
    · simp only [if_neg h]
      exact (ih.cons b).trans (List.Perm.swap a b l)

theorem jsSortDesc_perm (key : α → Int) (l : List α) :
    (jsSortDesc key l).Perm l := by
  induction l with
  | nil => simp [jsSortDesc]
  | cons a l ih =>
    exact (insertDesc_perm key a (jsSortDesc key l)).trans (ih.cons a)

theorem jsSortDesc_length (key : α → Int) (l : List α) :
    (jsSortDesc key l).length = l.length :=
  (jsSortDesc_perm key l).length_eq

theorem insertDesc_pairwise (key : α → Int) (a : α) (l : List α)
    (h : l.Pairwise (fun x y => key y ≤ key x)) :
    (insertDesc key a l).Pairwise (fun x y => key y ≤ key x) := by
  induction l with
  | nil => simp [insertDesc]
  | cons b l ih =>
    rw [List.pairwise_cons] at h
    obtain ⟨hb, hl⟩ := h
    simp only [insertDesc]
    by_cases hba : key b ≤ key a
    · simp only [if_pos hba]
      refine List.pairwise_cons.mpr ⟨?_, List.pairwise_cons.mpr ⟨hb, hl⟩⟩
      intro x hx
      rcases List.mem_cons.mp hx with rfl | hx
      · exact hba
      · exact le_trans (hb x hx) hba
    · simp only [if_neg hba]
      refine List.pairwise_cons.mpr ⟨?_, ih hl⟩
      intro x hx
      rcases List.mem_cons.mp ((insertDesc_perm key a l).mem_iff.mp hx) with
        rfl | hx2
      · exact le_of_lt (lt_of_not_le hba)
      · exact hb x hx2

theorem jsSortDesc_pairwise (key : α → Int) (l : List α) :
    (jsSortDesc key l).Pairwise (fun x y => key y ≤ key x) := by
  induction l with
  | nil => simp [jsSortDesc]
  | cons a l ih => exact insertDesc_pairwise key a (jsSortDesc key l) ih

theorem objValues_filter_snd (q : β → Bool) (l : List (String × β)) :
    objValues (l.filter (fun p => q p.2)) = (objValues l).filter q := by
  rw [objValues, objValues, List.filter_map]
  rfl

theorem find?_filter_of_imp (p q : α → Bool) (l : List α)
    (h : ∀ a, p a = true → q a = true) :
    List.find? p (l.filter q) = List.find? p l := by
  induction l with
  | nil => rfl
  | cons a l ih =>
    by_cases hq : q a = true
    · rw [List.filter_cons_of_pos hq]
      by_cases hp : p a = true
      · rw [List.find?_cons_of_pos _ hp, List.find?_cons_of_pos _ hp]
      · have hp0 : p a = false := by simpa using hp
        rw [List.find?_cons_of_neg _ (by simp [hp0]),
          List.find?_cons_of_neg _ (by simp [hp0])]
        exact ih
    · have hp0 : p a = false := by
        cases hpa : p a with
        | true => exact absurd (h a hpa) hq
        | false => rfl
      rw [List.filter_cons_of_neg hq, ih,
        List.find?_cons_of_neg _ (by simp [hp0])]

theorem headersGet_headersSet_self (hs : List (String × String))
    (n v : String) : headersGet (headersSet hs n v) n = some v := by
  unfold headersGet headersSet
  rw [List.find?_append]
  have h1 : List.find? (fun p => headerNameLower p.1 == headerNameLower n)
      (hs.filter (fun p => headerNameLower p.1 != headerNameLower n))
      = none := by
    rw [List.find?_eq_none]
    intro x hx
    have h2 := (List.mem_filter.mp hx).2
    simpa using h2
  rw [h1]
  simp [List.find?]

theorem headersGet_headersSet_ne (hs : List (String × String))
    (n v m : String) (h : headerNameLower m ≠ headerNameLower n) :
    headersGet (headersSet hs n v) m = headersGet hs m := by
  unfold headersGet headersSet
  rw [List.find?_append]
  have h1 : List.find? (fun p => headerNameLower p.1 == headerNameLower m)
      [(n, v)] = none := by
    have hne : (headerNameLower n == headerNameLower m) = false :=
      beq_eq_false_iff_ne.mpr (fun hc => h hc.symm)
    simp [List.find?, hne]
  have h2 : List.find? (fun p => headerNameLower p.1 == headerNameLower m)
      (hs.filter (fun p => headerNameLower p.1 != headerNameLower n))
      = List.find? (fun p => headerNameLower p.1 == headerNameLower m) hs := by
    apply find?_filter_of_imp
    intro a ha
    have ha2 : headerNameLower a.1 = headerNameLower m := by simpa using ha
    simp [ha2, h]
  rw [h1, h2, Option.or_none]

/-! ## Claim theorems -/

/-- C1: evaluating the verifier at its own failing input. A token minted
with `expiresIn: "0"` and verified one second later with the same secret is
rejected — but as `ProxyTokenInvalidError` (code `PROXY_TOKEN_INVALID`)
carrying jose's `JWTExpired` message, not as `ProxyTokenExpiredError`: the
catch handler classifies by the substring `expired`, which jose's message
`"exp" claim timestamp check failed` does not contain. -/

theorem C1_expired_token_misclassified :
    ∃ tok,
      createProxyToken { secret := "s", sandboxId := "sb",
                         sessionId := none,
                         expiresIn := some ("0") } 0 = .ok tok ∧
      verifyProxyTokenAsync { secret := "s", token := .signed tok } 1
        = .error (.invalidErr joseExpiredMessage) ∧
      ProxyTokenError.code (.invalidErr joseExpiredMessage)
        = "PROXY_TOKEN_INVALID" ∧
      classifyVerifyError joseExpiredMessage ≠ ProxyTokenError.expiredErr := by
  refine ⟨_, rfl, ?_, rfl, ?_⟩
  · rfl
  · decide

/-- C7: token round trip. For a non-empty secret, non-empty sandbox id `S`
and session id `T`, a token minted with `expiresIn: "1h"` verifies with the
same secret (at any instant before expiry) to a payload carrying
`sandboxId = S`, `sessionId = T` and `exp > iat`. -/
theorem C7_token_round_trip (secret S T : String) (now1 now2 : Int)
    (hsec : secret ≠ "") (hS : S ≠ "") (hT : T ≠ "")
    (hlive : now2 < now1 + 3600) :
    ∃ tok payload,
      createProxyToken { secret := secret, sandboxId := S,
                         sessionId := some T,
                         expiresIn := some ("1h") } now1 = .ok tok ∧
      verifyProxyToken { secret := secret, token := .signed tok } now2
        = .ok payload ∧
      payload.sandboxId = S ∧ payload.sessionId = some T ∧
      payload.exp > payload.iat := by
  have hsecb : (secret == "") = false := beq_eq_false_iff_ne.mpr hsec
  have hSb : (S == "") = false := beq_eq_false_iff_ne.mpr hS
  have hTb : (T != "") = true := by
    simp [bne, beq_eq_false_iff_ne.mpr hT]
  refine ⟨{ alg := "HS256",
            payload := { sandboxId := some S, sessionId := some T,
                         exp := some (now1 + 3600), iat := some now1 },
            key := secret },
    { sandboxId := S, sessionId := some T,
      exp := now1 + 3600, iat := now1 }, ?_, ?_, rfl, rfl, ?_⟩
  · unfold createProxyToken
    have hp : parseExpiresIn ("1h") = .ok 3600 := rfl
    simp [hsecb, hSb, hp, hTb]
  · unfold verifyProxyToken verifyProxyTokenTry joseJwtVerify
    have hexp : ¬(now1 + 3600 ≤ now2) := by omega
    simp [hsecb, hexp, Except.mapError]
  · show (now1 + 3600 : Int) > now1
    omega

/-- C8: a `run_task` call carrying a `sessionId` for which no session record
exists returns the structured envelope with code `SessionNotFoundError` and
message `Session "{sessionId}" not found`, and no workflow is submitted. -/
theorem C8_run_task_missing_session (b : SessionBucket) (params : RunTaskInput)
    (sid : String) (rest : Option SessionMetadata → RunTaskOutcome × Bool)
    (hsid : params.sessionId = some sid) (hmiss : getSession b sid = none) :
    runTaskSessionGate b params rest =
      (RunTaskOutcome.error
        { code := "SessionNotFoundError"
          message := "Session \"" ++ sid ++ "\" not found" }, false) := by
  unfold runTaskSessionGate
  rw [hsid]
  simp [hmiss, formatDomainError, SessionNotFoundError.message,
    SessionNotFoundError.tag]

/-- C8 witness: the theorem at the concrete fixture, with the formatted
message spelled out. -/
theorem C8_run_task_missing_session_witness :
    c8Params.sessionId = some ("does-not-exist") ∧
    getSession c8Bucket ("does-not-exist") = none ∧
    runTaskSessionGate c8Bucket c8Params c8Rest =
      (RunTaskOutcome.error
        { code := "SessionNotFoundError"
          message := "Session \"does-not-exist\" not found" }, false) :=
  ⟨rfl, rfl, C8_run_task_missing_session c8Bucket c8Params
    ("does-not-exist") c8Rest rfl rfl⟩

/-- C9: on a store whose index object is absent, `readIndex` synthesizes an
empty index instead of failing, so `listRuns` and `listSessions` return
empty listings with `total = 0` rather than an error. -/
theorem C9_absent_index_empty_listings (rb : RunBucket) (sb : SessionBucket)
    (now : Int) (ro : ListRunsOptions) (so : ListSessionsOptions)
    (hr : rb.index = none) (hs : sb.index = none) :
    readRunIndex now rb = { version := 1, runs := [], updatedAt := now } ∧
    readSessionIndex now sb
      = { version := 1, sessions := [], updatedAt := now } ∧
    listRuns ro now rb = { runs := [], total := 0 } ∧
    listSessions so now sb = { sessions := [], total := 0 } := by
  have h1 : readRunIndex now rb = { version := 1, runs := [], updatedAt := now } := by
    rw [readRunIndex, hr]
  have h2 : readSessionIndex now sb
      = { version := 1, sessions := [], updatedAt := now } := by
    rw [readSessionIndex, hs]
  refine ⟨h1, h2, ?_, ?_⟩
  · rw [listRuns, h1]
    simp [objValues, jsSortDesc, listRunsFilter]
  · rw [listSessions, h2]
    simp [objValues, jsSortDesc]

/-- C9 witness: the theorem at the concrete never-written stores. -/
theorem C9_absent_index_empty_listings_witness :
    c9RunBucket.index = none ∧ c9SessionBucket.index = none ∧
    (listRuns {} 7 c9RunBucket = { runs := [], total := 0 } ∧
      listSessions {} 7 c9SessionBucket = { sessions := [], total := 0 }) :=
  ⟨rfl, rfl,
    (C9_absent_index_empty_listings c9RunBucket c9SessionBucket 7 {} {}
      rfl rfl).2.2⟩

/-- C10: `listRuns` applies a filter only when the option value is truthy:
`before: 0`, an empty-string `sessionId` and an empty-string `status` each
behave as if the filter were omitted, and the `before: 0` call returns all
runs of the index (its `total` is the full index size). -/
theorem C10_falsy_filters_skipped (b : RunBucket) (now : Int) :
    listRuns { before := some 0 } now b = listRuns {} now b ∧
    listRuns { sessionId := some ("") } now b = listRuns {} now b ∧
    listRuns { status := some ("") } now b = listRuns {} now b ∧
    (listRuns { before := some 0 } now b).total
      = (objValues (readRunIndex now b).runs).length := by
  refine ⟨?_, ?_, ?_, ?_⟩ <;>
    simp [listRuns, listRunsFilter, truthyStr, truthyInt, jsSortDesc_length]

/-- C2: `completeRun`. Without a stored record the call fails with a storage
read error whose cause is `Run not found`; with a stored record it succeeds,
and afterwards the stored run has `status = success ? "completed" :
"failed"`, `completedAt = now`, the provided title (falling back to the
existing one), `result = {success, output ?? "", error}`, and the run index
holds exactly the projection of the updated record. -/
theorem C2_completeRun_spec (b : RunBucket) (runId : String)
    (res : CompleteRunResult) (now : Int) :
    (jsGet b.records runId = none →
      completeRun runId res now b
        = .error { runId := some runId, cause := "Run not found" }) ∧
    (∀ r, jsGet b.records runId = some r →
      ∃ b2, completeRun runId res now b = .ok b2 ∧
        ∃ r2, jsGet b2.records runId = some r2 ∧
          r2.status = (if res.success then "completed" else "failed") ∧
          r2.completedAt = some now ∧
          r2.title = res.title.getD r.title ∧
          r2.result = some { success := res.success,
                             output := res.output.getD "",
                             error := res.error } ∧
          r2.runId = r.runId ∧ r2.sessionId = r.sessionId ∧
          jsGet (readRunIndex now b2).runs runId = some (toIndexEntry r2)) := by
  constructor
  · intro h
    unfold completeRun
    rw [h]
  · intro r h
    unfold completeRun
    rw [h]
    refine ⟨_, rfl, _, jsGet_objSet_self _ _ _, rfl, rfl, rfl, rfl, rfl, rfl,
      ?_⟩
    simp only [readRunIndex]
    exact jsGet_objSet_self _ _ _

/-- C2 witness: both branches of the theorem at concrete inputs. -/
theorem C2_completeRun_spec_witness :
    (jsGet c2BucketEmpty.records ("r1") = none ∧
      completeRun ("r1") c2Res 5 c2BucketEmpty
        = .error { runId := some ("r1"), cause := "Run not found" }) ∧
    (jsGet c2Bucket.records ("r1") = some c2Run ∧
      ∃ b2, completeRun ("r1") c2Res 5 c2Bucket = .ok b2 ∧
        ∃ r2, jsGet b2.records ("r1") = some r2 ∧
          r2.status = (if c2Res.success then "completed" else "failed") ∧
          r2.completedAt = some 5 ∧
          r2.title = c2Res.title.getD c2Run.title ∧
          r2.result = some { success := c2Res.success,
                             output := c2Res.output.getD "",
                             error := c2Res.error } ∧
          r2.runId = c2Run.runId ∧ r2.sessionId = c2Run.sessionId ∧
          jsGet (readRunIndex 5 b2).runs ("r1") = some (toIndexEntry r2)) :=
  ⟨⟨rfl, (C2_completeRun_spec c2BucketEmpty ("r1") c2Res 5).1 rfl⟩,
    ⟨rfl, (C2_completeRun_spec c2Bucket ("r1") c2Res 5).2 c2Run rfl⟩⟩

/-- C5: totality of `parseProxyPath` over its error channel — for every
pathname and mount path it either returns a non-empty service together with
a target path starting with `/`, or it throws `ProxyPathInvalidError`. -/
theorem C5_parse_proxy_path_total (pathname mountPath : List Char) :
    (∃ sp, parseProxyPath pathname mountPath = .ok sp ∧
      sp.service ≠ [] ∧ sp.path.head? = some '/') ∨
    (∃ e, parseProxyPath pathname mountPath = .error e) := by
  rcases hres : parseProxyPath pathname mountPath with e | sp
  · exact .inr ⟨e, rfl⟩
  · refine .inl ⟨sp, rfl, ?_⟩
    unfold parseProxyPath at hres
    simp only [] at hres
    split at hres
    · simp at hres
    · split at hres
      · simp at hres
      · split at hres
        · simp at hres
        · next hserv =>
          obtain rfl := (Except.ok.inj hres)
          refine ⟨?_, rfl⟩
          intro hnil
          exact hserv (by simpa using congrArg List.isEmpty hnil)

/-- C7 witness: the round trip at a concrete secret, sandbox id, session id
and pair of instants. -/
theorem C7_token_round_trip_witness :
    (("sec" : String) ≠ "" ∧ ("sb1" : String) ≠ "" ∧ ("ss1" : String) ≠ ""
      ∧ (50 : Int) < 0 + 3600) ∧
    ∃ tok payload,
      createProxyToken { secret := "sec", sandboxId := "sb1",
                         sessionId := some ("ss1"),
                         expiresIn := some ("1h") } 0 = .ok tok ∧
      verifyProxyToken { secret := "sec", token := .signed tok } 50
        = .ok payload ∧
      payload.sandboxId = "sb1" ∧ payload.sessionId = some ("ss1") ∧
      payload.exp > payload.iat :=
  ⟨⟨by decide, by decide, by decide, by decide⟩,
    C7_token_round_trip ("sec") ("sb1") ("ss1") 0 50
      (by decide) (by decide) (by decide) (by decide)⟩

/-- The filter phase of `listRuns` coincides, for non-degenerate supplied
option values, with a single pass of the declarative filter predicate. -/
theorem listRunsFilter_eq (options : ListRunsOptions)
    (hsid : ∀ s, options.sessionId = some s → s ≠ "")
    (hst : ∀ s, options.status = some s → s ≠ "")
    (hbef : ∀ t, options.before = some t → t ≠ 0)
    (l : List RunIndexEntry) :
    listRunsFilter options l = l.filter (listRunsMatches options) := by
  obtain ⟨sid?, st?, lim?, bef?⟩ := options
  cases sid? with
  | none =>
    cases st? with
    | none =>
      cases bef? with
      | none =>
        simp only [listRunsFilter, truthyStr, truthyInt, Bool.false_eq_true,
          if_false]
        exact (List.filter_eq_self.mpr (fun a _ => by
          simp [listRunsMatches])).symm
      | some t =>
        have ht : (t != 0) = true := by simp [bne, hbef t rfl]
        simp only [listRunsFilter, truthyStr, truthyInt, ht,
          Bool.false_eq_true, if_false, if_true, Option.getD_some]
        exact List.filter_congr (fun r _ => by
          simp only [listRunsMatches]
          cases decide (r.startedAt < t) <;> simp)
    | some st =>
      have hstb : (st != "") = true := by
        simp [bne, beq_eq_false_iff_ne.mpr (hst st rfl)]
      cases bef? with
      | none =>
        simp only [listRunsFilter, truthyStr, truthyInt, hstb,
          Bool.false_eq_true, if_false, if_true, Option.getD_some]
        exact List.filter_congr (fun r _ => by
          simp only [listRunsMatches]
          cases r.status == st <;> simp)
      | some t =>
        have ht : (t != 0) = true := by simp [bne, hbef t rfl]
        simp only [listRunsFilter, truthyStr, truthyInt, hstb, ht,
          Bool.false_eq_true, if_false, if_true, Option.getD_some]
        rw [List.filter_filter]
        exact List.filter_congr (fun r _ => by
          simp only [listRunsMatches]
          cases r.status == st <;> cases decide (r.startedAt < t) <;> simp)
  | some sid =>
    have hsidb : (sid != "") = true := by
      simp [bne, beq_eq_false_iff_ne.mpr (hsid sid rfl)]
    cases st? with
    | none =>
      cases bef? with
      | none =>
        simp only [listRunsFilter, truthyStr, truthyInt, hsidb,
          Bool.false_eq_true, if_false, if_true, Option.getD_some]
        exact List.filter_congr (fun r _ => by
          simp only [listRunsMatches]
          cases r.sessionId == sid <;> simp)
      | some t =>
        have ht : (t != 0) = true := by simp [bne, hbef t rfl]
        simp only [listRunsFilter, truthyStr, truthyInt, hsidb, ht,
          Bool.false_eq_true, if_false, if_true, Option.getD_some]
        rw [List.filter_filter]
        exact List.filter_congr (fun r _ => by
          simp only [listRunsMatches]
          cases r.sessionId == sid <;> cases decide (r.startedAt < t) <;> simp)
    | some st =>
      have hstb : (st != "") = true := by
        simp [bne, beq_eq_false_iff_ne.mpr (hst st rfl)]
      cases bef? with
      | none =>
        simp only [listRunsFilter, truthyStr, truthyInt, hsidb, hstb,
          Bool.false_eq_true, if_false, if_true, Option.getD_some]
        rw [List.filter_filter]
        exact List.filter_congr (fun r _ => by
          simp only [listRunsMatches]
          cases r.sessionId == sid <;> cases r.status == st <;> simp)
      | some t =>
        have ht : (t != 0) = true := by simp [bne, hbef t rfl]
        simp only [listRunsFilter, truthyStr, truthyInt, hsidb, hstb, ht,
          Bool.false_eq_true, if_false, if_true, Option.getD_some]
        rw [List.filter_filter, List.filter_filter]
        exact List.filter_congr (fun r _ => by
          simp only [listRunsMatches]
          cases r.sessionId == sid <;> cases r.status == st <;>
            cases decide (r.startedAt < t) <;> simp)

/-- C3: `listRuns` returns exactly the index entries satisfying all supplied
filters, sorted descending by `startedAt`, truncated to the first `limit`
entries (default 100), with `total` the filtered count before the limit.
Supplied filter values are assumed non-degenerate (session ids, statuses and
cursors are non-empty resp. non-zero in the data model); the degenerate
falsy values are the subject of C10. -/
theorem C3_listRuns_filters (b : RunBucket) (now : Int)
    (options : ListRunsOptions)
    (hsid : ∀ s, options.sessionId = some s → s ≠ "")
    (hst : ∀ s, options.status = some s → s ≠ "")
    (hbef : ∀ t, options.before = some t → t ≠ 0) :
    listRuns options now b = listRunsSpec options now b ∧
    (listRunsSpec options now b).total
      = ((objValues (readRunIndex now b).runs).filter
          (listRunsMatches options)).length ∧
    (jsSortDesc (fun r => r.startedAt)
        ((objValues (readRunIndex now b).runs).filter
          (listRunsMatches options))).Perm
      ((objValues (readRunIndex now b).runs).filter
        (listRunsMatches options)) ∧
    (listRuns options now b).runs.Pairwise
      (fun x y => y.startedAt ≤ x.startedAt) := by
  have hfil := listRunsFilter_eq options hsid hst hbef
    (objValues (readRunIndex now b).runs)
  have hmain : listRuns options now b = listRunsSpec options now b := by
    simp only [listRuns, listRunsSpec]
    rw [hfil, jsSortDesc_length]
  refine ⟨hmain, rfl, jsSortDesc_perm _ _, ?_⟩
  rw [hmain]
  exact List.Pairwise.sublist (List.take_sublist _ _)
    (jsSortDesc_pairwise _ _)

/-- C3 witness: the theorem at a concrete index, plus the concrete
evaluation — of the three runs the two in `s1` match, the later one is
returned, and `total` counts both. -/
theorem C3_listRuns_filters_witness :
    (∀ s, c3Options.sessionId = some s → s ≠ "") ∧
    (∀ s, c3Options.status = some s → s ≠ "") ∧
    (∀ t, c3Options.before = some t → t ≠ 0) ∧
    listRuns c3Options 0 c3Bucket = listRunsSpec c3Options 0 c3Bucket ∧
    listRuns c3Options 0 c3Bucket =
      { runs := [{ runId := "c", sessionId := "s1", status := "completed",
                   title := "", startedAt := 300, completedAt := none }]
        total := 2 } := by
  have h1 : ∀ s, c3Options.sessionId = some s → s ≠ "" := by
    intro s h
    have h2 : some ("s1") = some s := h
    cases h2
    decide
  have h2 : ∀ s, c3Options.status = some s → s ≠ "" := by
    intro s h
    exact Option.noConfusion h
  have h3 : ∀ t, c3Options.before = some t → t ≠ 0 := by
    intro t h
    exact Option.noConfusion h
  exact ⟨h1, h2, h3, (C3_listRuns_filters c3Bucket 0 c3Options h1 h2 h3).1,
    by decide⟩

/-- C4: `deleteRunsForSession(X)` writes the filtered index before any
record deletion (the operation log is empty or an index write followed only
by record deletions), afterwards the index holds no entry of session `X` and
`listRuns({sessionId: X}).total = 0`, and listings of every other session
`Y` are unchanged. -/
theorem C4_deleteRunsForSession_cascade (b : RunBucket) (X : String)
    (now now2 : Int) (hX : X ≠ "") :
    ((deleteRunsForSession X now b).2 = [] ∨
      ∃ ids : List String, (deleteRunsForSession X now b).2
        = StoreOp.putIndex :: ids.map StoreOp.deleteRecord) ∧
    (∀ e ∈ objValues
        (readRunIndex now2 (deleteRunsForSession X now b).1).runs,
      e.sessionId ≠ X) ∧
    (listRuns { sessionId := some X } now2
      (deleteRunsForSession X now b).1).total = 0 ∧
    (∀ Y, Y ≠ X → Y ≠ "" →
      listRuns { sessionId := some Y } now2 (deleteRunsForSession X now b).1
        = listRuns { sessionId := some Y } now2 b) := by
  have hXb : (X != "") = true := by
    simp [bne, beq_eq_false_iff_ne.mpr hX]
  cases hidx : b.index with
  | none =>
    have hres : deleteRunsForSession X now b = (b, []) := by
      simp [deleteRunsForSession, readRunIndex, hidx, objValues]
    rw [hres]
    refine ⟨.inl rfl, ?_, ?_, fun Y _ _ => rfl⟩
    · simp [readRunIndex, hidx, objValues]
    · simp [listRuns, listRunsFilter, readRunIndex, hidx, objValues,
        truthyStr, truthyInt, hXb, jsSortDesc]
  | some idx =>
    by_cases hempty :
        (((objValues idx.runs).filter (fun r => r.sessionId == X)).map
          (fun r => r.runId)) = []
    · have hfilnil : (objValues idx.runs).filter
          (fun r => r.sessionId == X) = [] := by
        simpa using hempty
      have hres : deleteRunsForSession X now b = (b, []) := by
        simp [deleteRunsForSession, readRunIndex, hidx, hfilnil]
      rw [hres]
      have hnomem : ∀ e ∈ objValues idx.runs, e.sessionId ≠ X := by
        intro e he heq
        have h0 := List.filter_eq_nil_iff.mp hfilnil e he
        exact h0 (by simp [heq])
      refine ⟨.inl rfl, ?_, ?_, fun Y _ _ => rfl⟩
      · simpa [readRunIndex, hidx] using hnomem
      · simp [listRuns, listRunsFilter, readRunIndex, hidx, truthyStr,
          truthyInt, hXb, Option.getD_some, hfilnil, jsSortDesc]
    · have hidx2 : (deleteRunsForSession X now b).1.index
          = some { version := idx.version
                   runs := idx.runs.filter (fun p => p.2.sessionId != X)
                   updatedAt := now } := by
        simp [deleteRunsForSession, readRunIndex, hidx, hempty]
      have hsnd : (deleteRunsForSession X now b).2
          = StoreOp.putIndex ::
            (((objValues idx.runs).filter (fun r => r.sessionId == X)).map
              (fun r => r.runId)).map StoreOp.deleteRecord := by
        simp [deleteRunsForSession, readRunIndex, hidx, hempty]
      have hval : objValues (idx.runs.filter (fun p => p.2.sessionId != X))
          = (objValues idx.runs).filter (fun r => r.sessionId != X) :=
        objValues_filter_snd (fun r => r.sessionId != X) idx.runs
      refine ⟨.inr ⟨_, hsnd⟩, ?_, ?_, ?_⟩
      · intro e he heq
        rw [readRunIndex, hidx2] at he
        rw [hval] at he
        have h0 := (List.mem_filter.mp he).2
        simp [heq] at h0
      · have hfilX : ((objValues idx.runs).filter
            (fun r => r.sessionId != X)).filter
              (fun r => r.sessionId == X) = [] := by
          rw [List.filter_filter]
          apply List.filter_eq_nil_iff.mpr
          intro a _
          cases h : a.sessionId == X <;> simp [bne, h]
        simp [listRuns, listRunsFilter, readRunIndex, hidx2, truthyStr,
          truthyInt, hXb, Option.getD_some, hval, hfilX, jsSortDesc]
      · intro Y hYX hY
        have hYb : (Y != "") = true := by
          simp [bne, beq_eq_false_iff_ne.mpr hY]
        have hfilY : ((objValues idx.runs).filter
            (fun r => r.sessionId != X)).filter (fun r => r.sessionId == Y)
            = (objValues idx.runs).filter (fun r => r.sessionId == Y) := by
          rw [List.filter_filter]
          apply List.filter_congr
          intro a _
          by_cases h : a.sessionId = Y
          · have h1 : (a.sessionId == Y) = true := by simp [h]
            have hAX : a.sessionId ≠ X := by
              rw [h]
              exact hYX
            have h2 : (a.sessionId != X) = true := by
              simp [bne, beq_eq_false_iff_ne.mpr hAX]
            simp [h1, h2]
          · have h1 : (a.sessionId == Y) = false :=
              beq_eq_false_iff_ne.mpr h
            simp [h1]
        simp only [listRuns, listRunsFilter, readRunIndex, hidx2, hidx,
          truthyStr, truthyInt, hYb, if_true, Bool.false_eq_true, if_false,
          Option.getD_some]
        rw [hval, hfilY]

/-- C4 witness: the theorem at the concrete store, plus the concrete
operation log — the index write strictly precedes the two record
deletions. -/
theorem C4_deleteRunsForSession_cascade_witness :
    ("s1" : String) ≠ "" ∧
    (((deleteRunsForSession ("s1") 1 c4Bucket).2 = [] ∨
      ∃ ids : List String, (deleteRunsForSession ("s1") 1 c4Bucket).2
        = StoreOp.putIndex :: ids.map StoreOp.deleteRecord) ∧
    (∀ e ∈ objValues
        (readRunIndex 2 (deleteRunsForSession ("s1") 1 c4Bucket).1).runs,
      e.sessionId ≠ "s1") ∧
    (listRuns { sessionId := some ("s1") } 2
      (deleteRunsForSession ("s1") 1 c4Bucket).1).total = 0 ∧
    (∀ Y, Y ≠ "s1" → Y ≠ "" →
      listRuns { sessionId := some Y } 2
          (deleteRunsForSession ("s1") 1 c4Bucket).1
        = listRuns { sessionId := some Y } 2 c4Bucket)) ∧
    (deleteRunsForSession ("s1") 1 c4Bucket).2
      = [StoreOp.putIndex, StoreOp.deleteRecord ("a"),
         StoreOp.deleteRecord ("c")] :=
  ⟨by decide,
    C4_deleteRunsForSession_cascade c4Bucket ("s1") 1 2 (by decide),
    by decide⟩

/-- Characterization: `slashWithTail` holds exactly when the list splits around a slash with a
non-empty remainder. -/
theorem slashWithTail_iff (l : List Char) :
    slashWithTail l = true ↔ ∃ u v, l = u ++ '/' :: v ∧ v ≠ [] := by
  induction l with
  | nil =>
    simp [slashWithTail]
  | cons c rest ih =>
    cases rest with
    | nil =>
      simp only [slashWithTail]
      constructor
      · intro h
        cases h
      · rintro ⟨u, v, hl, hv⟩
        cases u with
        | nil =>
          simp at hl
          exact absurd hl.2 hv
        | cons x u2 =>
          simp at hl
    | cons d rest2 =>
      simp only [slashWithTail, Bool.or_eq_true]
      constructor
      · intro h
        rcases h with hc | hr
        · exact ⟨[], d :: rest2, by simp [eq_of_beq hc], by simp⟩
        · obtain ⟨u, v, hl, hv⟩ := ih.mp hr
          exact ⟨c :: u, v, by rw [List.cons_append, hl], hv⟩
      · rintro ⟨u, v, hl, hv⟩
        cases u with
        | nil =>
          simp at hl
          left
          simp [hl.1]
        | cons x u2 =>
          simp at hl
          right
          exact ih.mpr ⟨u2, v, hl.2, hv⟩

/-- Characterization: `middleOk` is exactly the regex fragment `^\/.+\/.+$` with `.` excluding
line terminators. -/
theorem middleOk_iff (P : List Char) :
    middleOk P = true ↔ ∃ A B, P = '/' :: (A ++ '/' :: B) ∧ A ≠ [] ∧ B ≠ []
      ∧ A.all dotCh ∧ B.all dotCh := by
  cases P with
  | nil =>
    simp only [middleOk]
    constructor
    · intro h
      cases h
    · rintro ⟨A, B, hl, -⟩
      cases hl
  | cons c P2 =>
    cases P2 with
    | nil =>
      simp only [middleOk]
      constructor
      · intro h
        cases h
      · rintro ⟨A, B, hl, hA, -⟩
        cases A with
        | nil => simp at hl
        | cons a2 u => simp at hl
    | cons a rest =>
      simp only [middleOk, Bool.and_eq_true]
      constructor
      · intro h
        obtain ⟨⟨hc, hall⟩, hsw⟩ := h
        obtain ⟨u, v, hrest, hv⟩ := (slashWithTail_iff rest).mp hsw
        refine ⟨a :: u, v, ?_, by simp, hv, ?_, ?_⟩
        · rw [eq_of_beq hc, hrest]
          rfl
        · rw [hrest] at hall
          simp [List.all_cons, List.all_append] at hall ⊢
          exact ⟨hall.1, hall.2.1⟩
        · rw [hrest] at hall
          simp [List.all_cons, List.all_append] at hall ⊢
          exact hall.2.2.2
      · rintro ⟨A, B, hl, hA, hB, hallA, hallB⟩
        cases A with
        | nil => exact absurd rfl hA
        | cons a2 u =>
          obtain ⟨hc, hl2⟩ := List.cons.inj hl
          obtain ⟨ha, hl3⟩ := List.cons.inj hl2
          refine ⟨⟨beq_iff_eq.mpr hc, ?_⟩,
            (slashWithTail_iff rest).mpr ⟨u, B, hl3, hB⟩⟩
          rw [hl3, ha]
          simp [List.all_cons, List.all_append] at hallA ⊢
          refine ⟨hallA.1, hallA.2, by decide, ?_⟩
          simpa using hallB

/-- One disjunct of `gitPathMatches` holds exactly when the path splits as a
`middleOk` part, a slash, and the literal suffix. -/
theorem gitSuffix_piece_iff (sfx s : List Char) :
    (('/' :: sfx).isSuffixOf s
      && middleOk (s.take (s.length - (sfx.length + 1)))) = true
    ↔ ∃ P, s = P ++ '/' :: sfx ∧ middleOk P = true := by
  simp only [Bool.and_eq_true]
  constructor
  · intro h
    obtain ⟨hsuf, hmid⟩ := h
    obtain ⟨t, ht⟩ := List.isSuffixOf_iff_suffix.mp hsuf
    have hlen : s.length - (sfx.length + 1) = t.length := by
      rw [← ht]
      simp [List.length_append]
    have htake : s.take (s.length - (sfx.length + 1)) = t := by
      rw [hlen, ← ht, List.take_left]
    exact ⟨t, ht.symm, htake ▸ hmid⟩
  · rintro ⟨P, rfl, hmid⟩
    refine ⟨List.isSuffixOf_iff_suffix.mpr ⟨P, rfl⟩, ?_⟩
    have hlen : (P ++ '/' :: sfx).length - (sfx.length + 1) = P.length := by
      simp [List.length_append]
    rw [hlen, List.take_left]
    exact hmid

/-- The executable allow-list test coincides with the transliterated
semantics of `^\/.+\/.+(\.git)?\/(info\/refs|git-upload-pack|
git-receive-pack)$` (the optional `.git` is absorbable into the preceding
`.+`). -/
theorem gitPathMatches_iff (s : List Char) :
    gitPathMatches s = true ↔ GitPathRegexMatch s := by
  constructor
  · intro h
    obtain ⟨sfx, hmem, hf⟩ := List.any_eq_true.mp h
    obtain ⟨P, rfl, hmid⟩ := (gitSuffix_piece_iff sfx _).mp hf
    obtain ⟨A, B, rfl, hA, hB, hallA, hallB⟩ := (middleOk_iff P).mp hmid
    refine ⟨A, B, [], sfx, ?_, hA, hB, hallA, hallB, .inl rfl, hmem⟩
    simp [List.append_assoc]
  · rintro ⟨A, B, G, sfx, rfl, hA, hB, hallA, hallB, hG, hmem⟩
    apply List.any_eq_true.mpr
    refine ⟨sfx, hmem, ?_⟩
    apply (gitSuffix_piece_iff sfx _).mpr
    refine ⟨'/' :: (A ++ '/' :: (B ++ G)), ?_, ?_⟩
    · simp [List.append_assoc]
    · apply (middleOk_iff _).mpr
      refine ⟨A, B ++ G, rfl, hA, ?_, hallA, ?_⟩
      · rcases hG with rfl | rfl
        · simpa using hB
        · simp
      · rcases hG with rfl | rfl
        · simpa using hallB
        · simp [List.all_append]
          exact ⟨by simpa using hallB, by decide⟩

/-- C6: under a configured `GITHUB_TOKEN`, the github transform returns
HTTP 400 without contacting the upstream for every path outside the git
smart-HTTP allow-list regex, and for every allowed path it forwards the
request with `Authorization: Basic btoa("x-access-token:" + token)` and the
fixed `User-Agent`. -/
theorem C6_github_transform (req : ProxyRequest) (env : GithubEnv)
    (tok : String) (htok : env.GITHUB_TOKEN = some tok) (hne : tok ≠ "") :
    (¬ GitPathRegexMatch req.pathname →
      githubTransform req env = .response 400 ("Invalid git path") ∧
      contactsUpstream (githubTransform req env) = false) ∧
    (GitPathRegexMatch req.pathname →
      ∃ req2, githubTransform req env = .request req2 ∧
        req2.pathname = req.pathname ∧
        headersGet req2.headers ("Authorization")
          = some ("Basic " ++ btoa ("x-access-token:" ++ tok)) ∧
        headersGet req2.headers ("User-Agent")
          = some ("Sandbox-Git-Proxy")) := by
  have htr2 : truthyStr (some tok) = true := by
    simp [truthyStr, bne, beq_eq_false_iff_ne.mpr hne]
  have htr : truthyStr env.GITHUB_TOKEN = true := by
    rw [htok]
    exact htr2
  constructor
  · intro hnm
    have hgm : gitPathMatches req.pathname = false := by
      cases hgp : gitPathMatches req.pathname
      · rfl
      · exact absurd ((gitPathMatches_iff _).mp hgp) hnm
    constructor
    · simp [githubTransform, htr, hgm]
    · simp [githubTransform, htr, hgm, contactsUpstream]
  · intro hm
    have hgm : gitPathMatches req.pathname = true :=
      (gitPathMatches_iff _).mpr hm
    refine ⟨{ req with
              headers := headersSet
                (headersSet req.headers ("Authorization")
                  ("Basic " ++ btoa ("x-access-token:" ++ tok)))
                ("User-Agent") ("Sandbox-Git-Proxy") }, ?_, rfl, ?_, ?_⟩
    · simp [githubTransform, htr, htr2, hgm, htok]
    · rw [headersGet_headersSet_ne _ _ _ _ (by decide),
        headersGet_headersSet_self]
    · rw [headersGet_headersSet_self]

/-- C6 witness: the theorem at the two concrete requests, plus a concrete
evaluation of the base64 encoder. -/
theorem C6_github_transform_witness :
    (c6Env.GITHUB_TOKEN = some ("ghp-token") ∧ ("ghp-token" : String) ≠ "") ∧
    (githubTransform c6ReqBad c6Env = .response 400 ("Invalid git path") ∧
      contactsUpstream (githubTransform c6ReqBad c6Env) = false) ∧
    (∃ req2, githubTransform c6ReqOk c6Env = .request req2 ∧
      req2.pathname = c6ReqOk.pathname ∧
      headersGet req2.headers ("Authorization")
        = some ("Basic " ++ btoa ("x-access-token:" ++ "ghp-token")) ∧
      headersGet req2.headers ("User-Agent")
        = some ("Sandbox-Git-Proxy")) ∧
    btoa ("x-access-token:ghp-token")
      = "eC1hY2Nlc3MtdG9rZW46Z2hwLXRva2Vu" := by
  have hbad : ¬ GitPathRegexMatch c6ReqBad.pathname := by
    intro h
    have h2 := (gitPathMatches_iff c6ReqBad.pathname).mpr h
    have h3 : gitPathMatches c6ReqBad.pathname = false := by decide
    rw [h3] at h2
    exact Bool.false_ne_true h2
  have hok : GitPathRegexMatch c6ReqOk.pathname :=
    (gitPathMatches_iff c6ReqOk.pathname).mp (by decide)
  exact ⟨⟨rfl, by decide⟩,
    (C6_github_transform c6ReqBad c6Env ("ghp-token") rfl (by decide)).1 hbad,
    (C6_github_transform c6ReqOk c6Env ("ghp-token") rfl (by decide)).2 hok,
    by decide⟩

end SandboxMcp
